import Mathlib

/-!
Verification of the Bid_Request_Simulator bid-decision engine.

Shallow embedding of `bidder_server.py` / `bidder_multi.py` / `ml_predictor.py`:
currency amounts and feature values are rationals, the simulated clock is an
explicit `DateTime` value (the Python code reads `datetime.now()` and uses its
`.day` and `.hour` attributes), the mutable module-level budget counters become
an explicit `BudgetState` threaded through the functions, and the CTR
predictor's outcome is passed in as a parameter (the impression-to-CTR map),
with `none` standing for a raised prediction exception.
-/

namespace Bidder

/-- The `device.geo` object of an impression: the country code string
(`''` when the field is absent, matching `imp.get(...).get('country', '')`). -/
structure Geo where
  country : String
deriving DecidableEq

/-- The `device` object of an impression; absent string fields are `''`
as produced by the Python `dict.get(..., '')` defaults. -/
structure Device where
  devicetype : String
  os : String
  geo : Geo
deriving DecidableEq

/-- An impression of a bid request.  `bidfloor` is `none` when the key is
absent or `null`; `some 0` is a present-but-zero floor (both are falsy for
Python's `not imp.get('bidfloor')`). -/
structure Imp where
  id : String
  bidfloor : Option ℚ
  device : Device
deriving DecidableEq

/-- A strategy profile: the configuration constants of `bidder_server.py`
(module constants) and the `STRATEGIES` entries of `bidder_multi.py`.
`markup` is the strategy-specific base-price add-on from
`generate_bid_response` (`+ 0.20` / `+ 0.01` / `+ 0.05`). -/
structure Profile where
  bidder_id : String
  target_country : String
  target_devices : List String
  target_os : List String
  min_bid_price : ℚ
  bid_window_start : ℕ
  bid_window_end : ℕ
  daily_budget : ℚ
  markup : ℚ
deriving DecidableEq

/-- The value of `datetime.now()`: the code only ever reads `.day`
(day of month) and `.hour`. -/
structure DateTime where
  year : ℕ
  month : ℕ
  day : ℕ
  hour : ℕ
deriving DecidableEq

/-- The module-level mutable budget counters `total_spent`, `bid_count`,
`last_reset_day` (the latter stores `datetime.now().day`, a day of month). -/
structure BudgetState where
  total_spent : ℚ
  bid_count : ℕ
  last_reset_day : ℕ
deriving DecidableEq

/-- Two `DateTime`s fall on the same calendar day. -/
def sameCalendarDay (t₁ t₂ : DateTime) : Prop :=
  t₁.year = t₂.year ∧ t₁.month = t₂.month ∧ t₁.day = t₂.day

/-- Function `reset_budget_if_new_day` (bidder_server.py:130-138, bidder_multi.py:112-120):
compares `datetime.now().day` with `last_reset_day` and zeroes the counters
on mismatch. -/
def reset_budget_if_new_day (now : DateTime) (s : BudgetState) : BudgetState :=
  if now.day ≠ s.last_reset_day then
    { total_spent := 0, bid_count := 0, last_reset_day := now.day }
  else
    s

/-- Python `str.upper()` on one character, restricted to ASCII letters (every
device/OS/country string this system compares is ASCII, where Python's
Unicode-aware `upper` agrees with the ASCII mapping). -/
def asciiUpperChar (c : Char) : Char :=
  if 'a' ≤ c ∧ c ≤ 'z' then Char.ofNat (c.toNat - 32) else c

/-- Python `str.upper()` for ASCII strings (kernel-reducible, unlike
`String.toUpper`, whose `String.mapAux` loop the kernel cannot unfold). -/
def asciiUpper (s : String) : String := ⟨s.data.map asciiUpperChar⟩

/-- Python `str.lower()` on one character, ASCII letters only. -/
def asciiLowerChar (c : Char) : Char :=
  if 'A' ≤ c ∧ c ≤ 'Z' then Char.ofNat (c.toNat + 32) else c

/-- Python `str.lower()` for ASCII strings. -/
def asciiLower (s : String) : String := ⟨s.data.map asciiLowerChar⟩

/-- Python truthiness of `imp.get('bidfloor')`: the key is present and the
value is nonzero (`None`, `0` and `0.0` are falsy). -/
def bidfloorTruthy (imp : Imp) : Bool :=
  match imp.bidfloor with
  | none => false
  | some f => f ≠ 0

/-- Function `should_bid` (bidder_server.py:141-183, bidder_multi.py:122-149).
Returns the budget state after the embedded `reset_budget_if_new_day` call
together with the decision.  The guards appear in source order: budget,
bidfloor truthiness, bid window, device type (upper-cased), OS, country. -/
def should_bid (cfg : Profile) (now : DateTime) (s₀ : BudgetState) (imp : Imp) :
    BudgetState × Bool :=
  let s := reset_budget_if_new_day now s₀
  if cfg.daily_budget ≤ s.total_spent then (s, false)
  else if ¬ bidfloorTruthy imp then (s, false)
  else if ¬ (cfg.bid_window_start ≤ now.hour ∧ now.hour < cfg.bid_window_end) then (s, false)
  else if asciiUpper imp.device.devicetype ∉ cfg.target_devices then (s, false)
  else if imp.device.os ∉ cfg.target_os then (s, false)
  else if imp.device.geo.country ≠ cfg.target_country then (s, false)
  else (s, true)

/-- The reason logged at each early `return False` of `should_bid`
(the second guard returns silently; we still record it as a reason). -/
inductive SkipReason where
  | budget
  | bidfloor
  | window
  | device
  | os
  | country
deriving DecidableEq

/-- The observable skip diagnostic of `should_bid`: which guard fired, read
off the source's if-chain in order; `none` when every check passes. -/
def should_bid_trace (cfg : Profile) (now : DateTime) (s₀ : BudgetState) (imp : Imp) :
    Option SkipReason :=
  let s := reset_budget_if_new_day now s₀
  if cfg.daily_budget ≤ s.total_spent then some .budget
  else if ¬ bidfloorTruthy imp then some .bidfloor
  else if ¬ (cfg.bid_window_start ≤ now.hour ∧ now.hour < cfg.bid_window_end) then some .window
  else if asciiUpper imp.device.devicetype ∉ cfg.target_devices then some .device
  else if imp.device.os ∉ cfg.target_os then some .os
  else if imp.device.geo.country ≠ cfg.target_country then some .country
  else none

/-- Rounding to 2 decimal places, `round(x, 2)`.  (Python rounds exact
half-cent ties to even; no verified property here depends on the tie rule.) -/
def round2 (q : ℚ) : ℚ := (round (q * 100) : ℤ) / 100

/-- Base price of `generate_bid_response`:
`max(imp.get('bidfloor', min_bid), min_bid) + markup`
(bidder_server.py:199, bidder_multi.py:164-172). -/
def base_price (cfg : Profile) (imp : Imp) : ℚ :=
  max (imp.bidfloor.getD cfg.min_bid_price) cfg.min_bid_price + cfg.markup

/-- CTR multiplier: `min(1.0 + ctr/0.05, 2.0)`
(bidder_server.py:202-203, bidder_multi.py:176-177). -/
def ctr_multiplier (ctr : ℚ) : ℚ :=
  min (1 + ctr / (5 / 100)) 2

/-- The `price` field of the emitted bid entry:
`round(base_price * ctr_multiplier, 2)`. -/
def bid_price (cfg : Profile) (imp : Imp) (ctr : ℚ) : ℚ :=
  round2 (base_price cfg imp * ctr_multiplier ctr)

/-- Default CTR used when the predictor raises: `click_probability = 0.015`
(bidder_server.py:196, bidder_multi.py:161). -/
def default_ctr : ℚ := 15 / 1000

/-- The `try predictor.predict ... except` block of `generate_bid_response`:
a failed prediction (`none`) falls back to `default_ctr`. -/
def resolve_ctr (r : Option ℚ) : ℚ := r.getD default_ctr

/-- Function `generate_bid_response` reduced to its numeric payload: the emitted
price and the `ext.predicted_ctr` metadata, for a prediction outcome `r`. -/
def generate_bid_response (cfg : Profile) (imp : Imp) (r : Option ℚ) : ℚ × ℚ :=
  let ctr := resolve_ctr r
  (bid_price cfg imp ctr, ctr)

/-- One iteration of the `for imp in bid_request['imp']` loop of the `/bid`
route (bidder_server.py:264-281, bidder_multi.py:281-294): decide via
`should_bid`, and on acceptance debit the emitted price and bump the count.
`pred imp` is the predictor outcome for the impression (`none` = raised).
Returns the new state and the emitted bid price, if any. -/
def processImp (cfg : Profile) (pred : Imp → Option ℚ) (now : DateTime)
    (s : BudgetState) (imp : Imp) : BudgetState × Option ℚ :=
  let (s₁, ok) := should_bid cfg now s imp
  if ok then
    let price := (generate_bid_response cfg imp (pred imp)).1
    ({ total_spent := s₁.total_spent + price,
       bid_count := s₁.bid_count + 1,
       last_reset_day := s₁.last_reset_day }, some price)
  else
    (s₁, none)

/-- The whole impression loop: final state and the list of accepted
(bid, debited) prices in order. -/
def processImps (cfg : Profile) (pred : Imp → Option ℚ) (now : DateTime)
    (s : BudgetState) : List Imp → BudgetState × List ℚ
  | [] => (s, [])
  | imp :: rest =>
      let (s₁, emitted) := processImp cfg pred now s imp
      let (s₂, prices) := processImps cfg pred now s₁ rest
      (s₂, emitted.toList ++ prices)

/-- The list of bid prices carried by the HTTP response of the `/bid` route:
when any impression was accepted, only `bids[0]` is returned
("For simplicity, we'll return the first bid", bidder_server.py:285-287,
bidder_multi.py:296-298); otherwise the body is empty (204). -/
def response_bids (emitted : List ℚ) : List ℚ :=
  match emitted.head? with
  | some p => [p]
  | none => []

/-- The `/bid` route outcome on a validated request: final budget state and
the response's bid-price list. -/
def bid_route (cfg : Profile) (pred : Imp → Option ℚ) (now : DateTime)
    (s : BudgetState) (imps : List Imp) : BudgetState × List ℚ :=
  let (s₁, emitted) := processImps cfg pred now s imps
  (s₁, response_bids emitted)

/-- The `remaining_budget` field of the `/stats` endpoint:
`round(max(0, daily_budget - total_spent), 2)`
(bidder_server.py:328, bidder_multi.py:219). -/
def remaining_budget (cfg : Profile) (s : BudgetState) : ℚ :=
  round2 (max 0 (cfg.daily_budget - s.total_spent))

/-- Function `_extract_features` (ml_predictor.py:177-211).  The Python code fills an
`np.zeros(8)` via `if/elif/else` chains; each slot below carries the exact
condition under which the source assigns it `1`.  A missing `bidfloor`
defaults to `1.0` (`imp.get('bidfloor', 1.0)`); the hour is
`datetime.now().hour`. -/
def extract_features (imp : Imp) (now : DateTime) : List ℚ :=
  let device_type := asciiUpper imp.device.devicetype
  let os_str := asciiLower imp.device.os
  let country := imp.device.geo.country
  let bidfloor := imp.bidfloor.getD 1
  [ if device_type = "PHONE" then 1 else 0,
    if device_type ≠ "PHONE" ∧ device_type = "TABLET" then 1 else 0,
    if device_type ≠ "PHONE" ∧ device_type ≠ "TABLET" then 1 else 0,
    if os_str = "ios" then 1 else 0,
    if os_str ≠ "ios" ∧ os_str = "android" then 1 else 0,
    if asciiUpper country = "USA" then 1 else 0,
    (now.hour : ℚ) / 23,
    min bidfloor 3 / 3 ]

/-- Clipping, `np.clip(x, lo, hi)`. -/
noncomputable def npclip (x lo hi : ℝ) : ℝ := min (max x lo) hi

/-- Function `_sigmoid` (ml_predictor.py:147-149): the logit is clipped to
`[-500, 500]` before exponentiation. -/
noncomputable def sigmoid (x : ℝ) : ℝ :=
  1 / (1 + Real.exp (-(npclip x (-500) 500)))

/-- The feature vector as a real-valued map, `features[i]`. -/
noncomputable def featR (imp : Imp) (now : DateTime) (i : Fin 8) : ℝ :=
  ((extract_features imp now).getD i 0 : ℚ)

/-- Function `predict` (ml_predictor.py:157-175): `sigmoid(w · features + b)`,
finally clipped to `[0, 1]` by `np.clip(probability, 0, 1)`.  The model
weights `w` and bias `b` are the persisted parameters. -/
noncomputable def predict (w : Fin 8 → ℝ) (b : ℝ) (imp : Imp) (now : DateTime) : ℝ :=
  npclip (sigmoid ((∑ i, w i * featR imp now i) + b)) 0 1

/-- The `conservative` entry of `STRATEGIES` (bidder_multi.py:34-44), with
the conservative `+ 0.20` markup of `generate_bid_response`. -/
def conservative : Profile :=
  { bidder_id := "conservative-bidder"
    target_country := "USA"
    target_devices := ["PHONE"]
    target_os := ["iOS"]
    min_bid_price := 2
    bid_window_start := 9
    bid_window_end := 17
    daily_budget := 15
    markup := 20 / 100 }

/-- The module-constant configuration of `bidder_server.py` (lines 25-32),
with its `+ 0.05` markup. -/
def server_profile : Profile :=
  { bidder_id := "minimal-bidder-v1"
    target_country := "USA"
    target_devices := ["PHONE", "TABLET"]
    target_os := ["iOS"]
    min_bid_price := 1
    bid_window_start := 9
    bid_window_end := 17
    daily_budget := 10
    markup := 5 / 100 }

end Bidder

namespace Bidder

section Round2Lemmas

theorem round2_mono {a b : ℚ} (h : a ≤ b) : round2 a ≤ round2 b := by
  unfold round2
  have hle : round (a * 100) ≤ round (b * 100) := by
    rw [round_eq, round_eq]
    exact Int.floor_le_floor (by linarith)
  have : ((round (a * 100) : ℤ) : ℚ) ≤ ((round (b * 100) : ℤ) : ℚ) := by
    exact_mod_cast hle
  linarith

theorem round2_nonneg {a : ℚ} (h : 0 ≤ a) : 0 ≤ round2 a := by
  have h0 : round2 0 = 0 := by
    unfold round2
    norm_num
  calc (0 : ℚ) = round2 0 := h0.symm
    _ ≤ round2 a := round2_mono h

end Round2Lemmas

section ResetLemmas

theorem reset_last_reset_day (now : DateTime) (s : BudgetState) :
    (reset_budget_if_new_day now s).last_reset_day = s.last_reset_day ∨
      (reset_budget_if_new_day now s).last_reset_day = now.day := by
  unfold reset_budget_if_new_day
  split <;> simp

theorem reset_spent_cases (now : DateTime) (s : BudgetState) :
    (reset_budget_if_new_day now s).total_spent = s.total_spent ∨
      (reset_budget_if_new_day now s).total_spent = 0 := by
  unfold reset_budget_if_new_day
  split <;> simp

theorem reset_of_same_day (now : DateTime) (s : BudgetState)
    (h : s.last_reset_day = now.day) : reset_budget_if_new_day now s = s := by
  unfold reset_budget_if_new_day
  simp [h]

end ResetLemmas

section ShouldBidLemmas

theorem should_bid_fst (cfg : Profile) (now : DateTime) (s : BudgetState) (imp : Imp) :
    (should_bid cfg now s imp).1 = reset_budget_if_new_day now s := by
  simp only [should_bid]
  split_ifs <;> rfl

theorem should_bid_true_spent_lt (cfg : Profile) (now : DateTime) (s : BudgetState)
    (imp : Imp) (h : (should_bid cfg now s imp).2 = true) :
    (reset_budget_if_new_day now s).total_spent < cfg.daily_budget := by
  simp only [should_bid] at h
  split_ifs at h with h₁
  simp_all

end ShouldBidLemmas

/-- The first entry of a (reason, check-passed) list whose check failed;
used to state the short-circuit order of the targeting filter. -/
def firstFailing : List (SkipReason × Bool) → Option SkipReason
  | [] => none
  | (r, ok) :: rest => if ok then firstFailing rest else some r

/-- Modelled from the claim's words (spec §4.1, claim C3): the six checks
with check (2) read as "the impression has a positive `bidfloor`";
`shouldBid` per the claim is their conjunction. -/
def should_bid_claim (cfg : Profile) (now : DateTime) (s₀ : BudgetState) (imp : Imp) : Bool :=
  let s := reset_budget_if_new_day now s₀
  decide (s.total_spent < cfg.daily_budget) &&
  (match imp.bidfloor with
   | none => false
   | some f => decide (0 < f)) &&
  decide (cfg.bid_window_start ≤ now.hour ∧ now.hour < cfg.bid_window_end) &&
  decide (asciiUpper imp.device.devicetype ∈ cfg.target_devices) &&
  decide (imp.device.os ∈ cfg.target_os) &&
  decide (imp.device.geo.country = cfg.target_country)

/-- C3 counterexample: an impression with `bidfloor = -1` (present and
nonzero, hence truthy for `not imp.get('bidfloor')`) is bid on by the code,
while the claim's check (2) — positive bidfloor — fails, so the claimed
if-and-only-if is false at this input. -/
theorem c3_positive_bidfloor_counterexample :
    (should_bid conservative ⟨2025, 1, 5, 10⟩ ⟨0, 0, 5⟩
        ⟨"imp-neg", some (-1), ⟨"PHONE", "iOS", ⟨"USA"⟩⟩⟩).2 = true ∧
      should_bid_claim conservative ⟨2025, 1, 5, 10⟩ ⟨0, 0, 5⟩
        ⟨"imp-neg", some (-1), ⟨"PHONE", "iOS", ⟨"USA"⟩⟩⟩ = false := by
  constructor <;> decide

/-- C3 (amended): `should_bid` returns true iff all six checks pass, where
check (2) is "the bidfloor is present and nonzero" (Python truthiness)
rather than "positive"; and the logged skip reason is exactly the first
failing check in the order budget, bidfloor, window, device, OS, country,
with the decision true iff no check fails. -/
theorem c3_should_bid_checks (cfg : Profile) (now : DateTime) (s : BudgetState) (imp : Imp) :
    ((should_bid cfg now s imp).2 = true ↔
      ((reset_budget_if_new_day now s).total_spent < cfg.daily_budget ∧
        bidfloorTruthy imp = true ∧
        (cfg.bid_window_start ≤ now.hour ∧ now.hour < cfg.bid_window_end) ∧
        asciiUpper imp.device.devicetype ∈ cfg.target_devices ∧
        imp.device.os ∈ cfg.target_os ∧
        imp.device.geo.country = cfg.target_country)) ∧
      should_bid_trace cfg now s imp = firstFailing
        [(.budget, decide ((reset_budget_if_new_day now s).total_spent < cfg.daily_budget)),
         (.bidfloor, bidfloorTruthy imp),
         (.window, decide (cfg.bid_window_start ≤ now.hour ∧ now.hour < cfg.bid_window_end)),
         (.device, decide (asciiUpper imp.device.devicetype ∈ cfg.target_devices)),
         (.os, decide (imp.device.os ∈ cfg.target_os)),
         (.country, decide (imp.device.geo.country = cfg.target_country))] ∧
      ((should_bid cfg now s imp).2 = true ↔ should_bid_trace cfg now s imp = none) := by
  simp only [should_bid, should_bid_trace, firstFailing]
  by_cases h₁ : cfg.daily_budget ≤ (reset_budget_if_new_day now s).total_spent
  · simp [h₁, not_lt.mpr h₁]
  · have h₁' := lt_of_not_le h₁
    by_cases h₂ : bidfloorTruthy imp = true
    · by_cases h₃ : cfg.bid_window_start ≤ now.hour ∧ now.hour < cfg.bid_window_end
      · by_cases h₄ : asciiUpper imp.device.devicetype ∈ cfg.target_devices
        · by_cases h₅ : imp.device.os ∈ cfg.target_os
          · by_cases h₆ : imp.device.geo.country = cfg.target_country
            · simp [h₁, h₁', h₂, h₃, h₃.1, h₃.2, h₄, h₅, h₆]
            · simp [h₁, h₁', h₂, h₃, h₃.1, h₃.2, h₄, h₅, h₆]
          · simp [h₁, h₁', h₂, h₃, h₃.1, h₃.2, h₄, h₅]
        · simp [h₁, h₁', h₂, h₃, h₃.1, h₃.2, h₄]
      · simp [h₁, h₁', h₂, h₃]
    · simp [h₁, h₁', h₂]

/-- C3 witness: the amended equivalence applied at a concrete passing input. -/
theorem c3_should_bid_checks_witness :
    (should_bid conservative ⟨2025, 1, 5, 10⟩ ⟨0, 0, 5⟩
        ⟨"imp-ok", some 2, ⟨"PHONE", "iOS", ⟨"USA"⟩⟩⟩).2 = true :=
  (c3_should_bid_checks conservative ⟨2025, 1, 5, 10⟩ ⟨0, 0, 5⟩
      ⟨"imp-ok", some 2, ⟨"PHONE", "iOS", ⟨"USA"⟩⟩⟩).1.mpr (by decide)

/-- C6 counterexample: `2025-02-05` is a different calendar day from
`2025-01-05`, but because the rollover compares only `datetime.now().day`
(the day of month), the first ledger operation of the new day does not
reset: spend and count keep their prior-day values. -/
theorem c6_month_rollover_counterexample :
    ¬ sameCalendarDay ⟨2025, 1, 5, 10⟩ ⟨2025, 2, 5, 10⟩ ∧
      reset_budget_if_new_day ⟨2025, 2, 5, 10⟩ ⟨7, 3, 5⟩ = ⟨7, 3, 5⟩ ∧
      (7 : ℚ) ≠ 0 := by
  refine ⟨?_, by decide, by norm_num⟩
  unfold sameCalendarDay
  decide

/-- C6 (amended): the rollover triggers exactly when the current day of
month differs from `last_reset_day` (so a new calendar day whose day of
month coincides — e.g. exactly one month later — does not reset): on a
differing day of month the counters become exactly 0 and `last_reset_day`
becomes the current day, regardless of prior values; on the same day of
month the state is untouched; and the reset is idempotent within a day. -/
theorem c6_reset_day_of_month (now : DateTime) (s : BudgetState) :
    (now.day ≠ s.last_reset_day →
      reset_budget_if_new_day now s = ⟨0, 0, now.day⟩) ∧
    (now.day = s.last_reset_day → reset_budget_if_new_day now s = s) ∧
    reset_budget_if_new_day now (reset_budget_if_new_day now s) =
      reset_budget_if_new_day now s := by
  unfold reset_budget_if_new_day
  split_ifs <;> simp_all

/-- C6 witness: a concrete rollover with nonzero prior spend resets to zero. -/
theorem c6_reset_day_of_month_witness :
    reset_budget_if_new_day ⟨2025, 1, 6, 10⟩ ⟨7, 3, 5⟩ = ⟨0, 0, 6⟩ :=
  (c6_reset_day_of_month ⟨2025, 1, 6, 10⟩ ⟨7, 3, 5⟩).1 (by decide)

/-- C10: the `/stats` endpoint reports
`remaining_budget = round(max(0, daily_budget - total_spent), 2)`, which is
nonnegative for every budget state, including overspent ones. -/
theorem c10_remaining_budget_nonneg (cfg : Profile) (s : BudgetState) :
    remaining_budget cfg s = round2 (max 0 (cfg.daily_budget - s.total_spent)) ∧
      0 ≤ remaining_budget cfg s :=
  ⟨rfl, round2_nonneg (le_max_left _ _)⟩

end Bidder

namespace Bidder

section ProcessLemmas

theorem processImp_of_not_bid (cfg : Profile) (pred : Imp → Option ℚ) (now : DateTime)
    (s : BudgetState) (imp : Imp) (h : (should_bid cfg now s imp).2 = false) :
    processImp cfg pred now s imp = (reset_budget_if_new_day now s, none) := by
  have hsb : should_bid cfg now s imp = (reset_budget_if_new_day now s, false) := by
    have h1 := should_bid_fst cfg now s imp
    cases hsb : should_bid cfg now s imp with
    | mk a b => simp_all
  simp [processImp, hsb]

theorem processImp_of_bid (cfg : Profile) (pred : Imp → Option ℚ) (now : DateTime)
    (s : BudgetState) (imp : Imp) (h : (should_bid cfg now s imp).2 = true) :
    processImp cfg pred now s imp =
      ({ total_spent := (reset_budget_if_new_day now s).total_spent +
            bid_price cfg imp (resolve_ctr (pred imp)),
         bid_count := (reset_budget_if_new_day now s).bid_count + 1,
         last_reset_day := (reset_budget_if_new_day now s).last_reset_day },
       some (bid_price cfg imp (resolve_ctr (pred imp)))) := by
  have hsb : should_bid cfg now s imp = (reset_budget_if_new_day now s, true) := by
    have h1 := should_bid_fst cfg now s imp
    cases hsb : should_bid cfg now s imp with
    | mk a b => simp_all
  simp [processImp, hsb, generate_bid_response]

theorem processImp_isSome_iff (cfg : Profile) (pred : Imp → Option ℚ) (now : DateTime)
    (s : BudgetState) (imp : Imp) :
    (processImp cfg pred now s imp).2.isSome = true ↔
      (should_bid cfg now s imp).2 = true := by
  by_cases h : (should_bid cfg now s imp).2 = true
  · simp [processImp_of_bid cfg pred now s imp h, h]
  · have h' : (should_bid cfg now s imp).2 = false := by simpa using h
    simp [processImp_of_not_bid cfg pred now s imp h', h']

theorem processImps_cons (cfg : Profile) (pred : Imp → Option ℚ) (now : DateTime)
    (s : BudgetState) (imp : Imp) (rest : List Imp) :
    processImps cfg pred now s (imp :: rest) =
      ((processImps cfg pred now (processImp cfg pred now s imp).1 rest).1,
        (processImp cfg pred now s imp).2.toList ++
          (processImps cfg pred now (processImp cfg pred now s imp).1 rest).2) := rfl

theorem processImps_ledger (cfg : Profile) (pred : Imp → Option ℚ) (now : DateTime)
    (imps : List Imp) : ∀ s : BudgetState, s.last_reset_day = now.day →
    (processImps cfg pred now s imps).1.total_spent
        = s.total_spent + ((processImps cfg pred now s imps).2).sum
      ∧ (processImps cfg pred now s imps).1.bid_count
        = s.bid_count + ((processImps cfg pred now s imps).2).length
      ∧ (processImps cfg pred now s imps).1.last_reset_day = now.day := by
  induction imps with
  | nil => intro s h; simpa [processImps] using h
  | cons imp rest ih =>
      intro s h
      have hreset : reset_budget_if_new_day now s = s := reset_of_same_day now s h
      rw [processImps_cons]
      by_cases hok : (should_bid cfg now s imp).2 = true
      · have hstep := processImp_of_bid cfg pred now s imp hok
        rw [hreset] at hstep
        rw [hstep]
        obtain ⟨h₁, h₂, h₃⟩ :=
          ih { total_spent := s.total_spent + bid_price cfg imp (resolve_ctr (pred imp)),
               bid_count := s.bid_count + 1,
               last_reset_day := s.last_reset_day } (by simpa using h)
        refine ⟨?_, ?_, h₃⟩
        · simp only [h₁, Option.toList_some, List.sum_cons, List.cons_append,
            List.nil_append]
          ring
        · simp only [h₂, Option.toList_some, List.length_cons, List.cons_append,
            List.nil_append]
          omega
      · have hok' : (should_bid cfg now s imp).2 = false := by simpa using hok
        have hstep := processImp_of_not_bid cfg pred now s imp hok'
        rw [hreset] at hstep
        rw [hstep]
        simpa using ih s h

theorem response_bids_take (l : List ℚ) : response_bids l = l.take 1 := by
  cases l <;> simp [response_bids]

theorem bid_route_eq (cfg : Profile) (pred : Imp → Option ℚ) (now : DateTime)
    (s : BudgetState) (imps : List Imp) :
    bid_route cfg pred now s imps =
      ((processImps cfg pred now s imps).1,
        response_bids (processImps cfg pred now s imps).2) := by
  rcases hp : processImps cfg pred now s imps with ⟨a, b⟩
  simp [bid_route, hp]

theorem processImps_spent_bound (cfg : Profile) (pred : Imp → Option ℚ) (now : DateTime)
    (p : ℚ) (imps : List Imp) : ∀ s : BudgetState,
    0 ≤ s.total_spent → s.total_spent < cfg.daily_budget + p →
    (∀ imp ∈ imps, 0 ≤ bid_price cfg imp (resolve_ctr (pred imp)) ∧
        bid_price cfg imp (resolve_ctr (pred imp)) ≤ p) →
    0 ≤ (processImps cfg pred now s imps).1.total_spent ∧
      (processImps cfg pred now s imps).1.total_spent < cfg.daily_budget + p := by
  induction imps with
  | nil => intro s h0 hlt _; simpa [processImps] using ⟨h0, hlt⟩
  | cons imp rest ih =>
      intro s h0 hlt hp
      have hs₁ : 0 ≤ (reset_budget_if_new_day now s).total_spent ∧
          (reset_budget_if_new_day now s).total_spent < cfg.daily_budget + p := by
        rcases reset_spent_cases now s with h | h <;> rw [h]
        · exact ⟨h0, hlt⟩
        · exact ⟨le_refl 0, lt_of_le_of_lt h0 hlt⟩
      by_cases hok : (should_bid cfg now s imp).2 = true
      · have hstep := processImp_of_bid cfg pred now s imp hok
        have hguard := should_bid_true_spent_lt cfg now s imp hok
        have hprice := hp imp (List.mem_cons_self imp rest)
        simp only [processImps, hstep]
        apply ih
        · exact add_nonneg hs₁.1 hprice.1
        · have : (reset_budget_if_new_day now s).total_spent +
              bid_price cfg imp (resolve_ctr (pred imp)) < cfg.daily_budget + p := by
            linarith [hguard, hprice.2]
          simpa using this
        · intro i hi; exact hp i (List.mem_cons_of_mem imp hi)
      · have hok' : (should_bid cfg now s imp).2 = false := by simpa using hok
        have hstep := processImp_of_not_bid cfg pred now s imp hok'
        simp only [processImps, hstep]
        apply ih _ hs₁.1 hs₁.2
        intro i hi; exact hp i (List.mem_cons_of_mem imp hi)

end ProcessLemmas

/-- C1 counterexample: daily budget 15.00 and three consecutive admitted
impressions each priced at 6.00 (bidfloor 5.80 + conservative markup 0.20,
CTR 0, multiplier 1).  The admission check is `total_spent >= daily_budget`
and ignores the price about to be debited, so the third impression (spend
12.00 < 15.00) is also admitted: three bids are emitted and the day's
debited sum is 18.00, exceeding the budget — not 12.00 with a third no-bid
as claimed. -/
theorem c1_budget_scenario_counterexample :
    (processImps conservative (fun _ => some 0) ⟨2025, 1, 5, 10⟩ ⟨0, 0, 5⟩
        [⟨"i1", some (29/5), ⟨"PHONE", "iOS", ⟨"USA"⟩⟩⟩,
         ⟨"i2", some (29/5), ⟨"PHONE", "iOS", ⟨"USA"⟩⟩⟩,
         ⟨"i3", some (29/5), ⟨"PHONE", "iOS", ⟨"USA"⟩⟩⟩]).1.total_spent = 18 ∧
      (processImps conservative (fun _ => some 0) ⟨2025, 1, 5, 10⟩ ⟨0, 0, 5⟩
        [⟨"i1", some (29/5), ⟨"PHONE", "iOS", ⟨"USA"⟩⟩⟩,
         ⟨"i2", some (29/5), ⟨"PHONE", "iOS", ⟨"USA"⟩⟩⟩,
         ⟨"i3", some (29/5), ⟨"PHONE", "iOS", ⟨"USA"⟩⟩⟩]).2 = [6, 6, 6] ∧
      conservative.daily_budget = 15 ∧ (15 : ℚ) < 18 := by
  refine ⟨by with_unfolding_all decide, by with_unfolding_all decide, by decide, by norm_num⟩

/-- C1 (amended): the admission check only requires the spend so far to be
strictly below the daily budget, so the day's debited sum can exceed
`daily_budget`, but by less than one admitted bid's price: if every
processed impression's price is at most `p` and the starting spend is
nonnegative and below `daily_budget + p`, the spend stays nonnegative and
strictly below `daily_budget + p`; moreover a debit is only ever admitted
from a state whose spend is strictly below `daily_budget`. -/
theorem c1_budget_overshoot_bound (cfg : Profile) (pred : Imp → Option ℚ)
    (now : DateTime) (s : BudgetState) (imp : Imp) (imps : List Imp) (p : ℚ)
    (h0 : 0 ≤ s.total_spent) (hB : s.total_spent < cfg.daily_budget + p)
    (hp : ∀ i ∈ imps, 0 ≤ bid_price cfg i (resolve_ctr (pred i)) ∧
        bid_price cfg i (resolve_ctr (pred i)) ≤ p) :
    ((processImp cfg pred now s imp).2.isSome = true →
        (reset_budget_if_new_day now s).total_spent < cfg.daily_budget) ∧
      0 ≤ (processImps cfg pred now s imps).1.total_spent ∧
      (processImps cfg pred now s imps).1.total_spent < cfg.daily_budget + p := by
  refine ⟨fun h => ?_, processImps_spent_bound cfg pred now p imps s h0 hB hp⟩
  exact should_bid_true_spent_lt cfg now s imp
    ((processImp_isSome_iff cfg pred now s imp).mp h)

/-- C1 witness: the overshoot bound applied to the 15.00-budget scenario
with per-impression price 6.00: the final spend stays below 21.00. -/
theorem c1_budget_overshoot_bound_witness :
    0 ≤ (processImps conservative (fun _ => some 0) ⟨2025, 1, 5, 10⟩ ⟨0, 0, 5⟩
        [⟨"i1", some (29/5), ⟨"PHONE", "iOS", ⟨"USA"⟩⟩⟩,
         ⟨"i2", some (29/5), ⟨"PHONE", "iOS", ⟨"USA"⟩⟩⟩,
         ⟨"i3", some (29/5), ⟨"PHONE", "iOS", ⟨"USA"⟩⟩⟩]).1.total_spent ∧
      (processImps conservative (fun _ => some 0) ⟨2025, 1, 5, 10⟩ ⟨0, 0, 5⟩
        [⟨"i1", some (29/5), ⟨"PHONE", "iOS", ⟨"USA"⟩⟩⟩,
         ⟨"i2", some (29/5), ⟨"PHONE", "iOS", ⟨"USA"⟩⟩⟩,
         ⟨"i3", some (29/5), ⟨"PHONE", "iOS", ⟨"USA"⟩⟩⟩]).1.total_spent <
        conservative.daily_budget + 6 :=
  (c1_budget_overshoot_bound conservative (fun _ => some 0) ⟨2025, 1, 5, 10⟩
      ⟨0, 0, 5⟩ ⟨"i1", some (29/5), ⟨"PHONE", "iOS", ⟨"USA"⟩⟩⟩
      [⟨"i1", some (29/5), ⟨"PHONE", "iOS", ⟨"USA"⟩⟩⟩,
       ⟨"i2", some (29/5), ⟨"PHONE", "iOS", ⟨"USA"⟩⟩⟩,
       ⟨"i3", some (29/5), ⟨"PHONE", "iOS", ⟨"USA"⟩⟩⟩] 6
      (by norm_num) (by norm_num [conservative]) (by with_unfolding_all decide)).2

/-- C2 counterexample: a request with two admitted impressions (bidfloor
2.00, conservative strategy, CTR 0, price 2.20 each).  The ledger is
debited twice (spend 4.40, count 2) but the HTTP response carries only the
first bid (one entry, price 2.20): the response does not contain one bid
per accepted impression, and the second debit has no corresponding emitted
bid. -/
theorem c2_response_single_bid_counterexample :
    ((bid_route conservative (fun _ => some 0) ⟨2025, 1, 5, 10⟩ ⟨0, 0, 5⟩
        [⟨"i1", some 2, ⟨"PHONE", "iOS", ⟨"USA"⟩⟩⟩,
         ⟨"i2", some 2, ⟨"PHONE", "iOS", ⟨"USA"⟩⟩⟩]).2).length = 1 ∧
      ((processImps conservative (fun _ => some 0) ⟨2025, 1, 5, 10⟩ ⟨0, 0, 5⟩
        [⟨"i1", some 2, ⟨"PHONE", "iOS", ⟨"USA"⟩⟩⟩,
         ⟨"i2", some 2, ⟨"PHONE", "iOS", ⟨"USA"⟩⟩⟩]).2).length = 2 ∧
      (bid_route conservative (fun _ => some 0) ⟨2025, 1, 5, 10⟩ ⟨0, 0, 5⟩
        [⟨"i1", some 2, ⟨"PHONE", "iOS", ⟨"USA"⟩⟩⟩,
         ⟨"i2", some 2, ⟨"PHONE", "iOS", ⟨"USA"⟩⟩⟩]).1.total_spent = 22/5 ∧
      ((bid_route conservative (fun _ => some 0) ⟨2025, 1, 5, 10⟩ ⟨0, 0, 5⟩
        [⟨"i1", some 2, ⟨"PHONE", "iOS", ⟨"USA"⟩⟩⟩,
         ⟨"i2", some 2, ⟨"PHONE", "iOS", ⟨"USA"⟩⟩⟩]).2).sum = 11/5 ∧
      (22 : ℚ)/5 ≠ 11/5 := by
  refine ⟨by with_unfolding_all decide, by with_unfolding_all decide,
    by with_unfolding_all decide, by with_unfolding_all decide, by norm_num⟩

/-- C2 (amended): on a request processed without internal fault and without
a day rollover, the ledger is debited exactly once per accepted impression
(spend grows by the sum of the accepted prices, the bid count by their
number), while the returned response carries only the first accepted bid;
debits for accepted impressions after the first therefore have no
corresponding bid entry in the response. -/
theorem c2_ledger_debits_accepted (cfg : Profile) (pred : Imp → Option ℚ)
    (now : DateTime) (s : BudgetState) (imps : List Imp)
    (h : s.last_reset_day = now.day) :
    (processImps cfg pred now s imps).1.total_spent
        = s.total_spent + ((processImps cfg pred now s imps).2).sum ∧
      (processImps cfg pred now s imps).1.bid_count
        = s.bid_count + ((processImps cfg pred now s imps).2).length ∧
      (bid_route cfg pred now s imps).2
        = ((processImps cfg pred now s imps).2).take 1 := by
  have hl := processImps_ledger cfg pred now imps s h
  exact ⟨hl.1, hl.2.1, by rw [bid_route_eq, response_bids_take]⟩

/-- C2 witness: the accepted-debit accounting applied to the two-impression
request of the counterexample. -/
theorem c2_ledger_debits_accepted_witness :
    (processImps conservative (fun _ => some 0) ⟨2025, 1, 5, 10⟩ ⟨0, 0, 5⟩
        [⟨"i1", some 2, ⟨"PHONE", "iOS", ⟨"USA"⟩⟩⟩,
         ⟨"i2", some 2, ⟨"PHONE", "iOS", ⟨"USA"⟩⟩⟩]).1.total_spent
      = (0 : ℚ) + ((processImps conservative (fun _ => some 0) ⟨2025, 1, 5, 10⟩ ⟨0, 0, 5⟩
        [⟨"i1", some 2, ⟨"PHONE", "iOS", ⟨"USA"⟩⟩⟩,
         ⟨"i2", some 2, ⟨"PHONE", "iOS", ⟨"USA"⟩⟩⟩]).2).sum :=
  (c2_ledger_debits_accepted conservative (fun _ => some 0) ⟨2025, 1, 5, 10⟩
      ⟨0, 0, 5⟩
      [⟨"i1", some 2, ⟨"PHONE", "iOS", ⟨"USA"⟩⟩⟩,
       ⟨"i2", some 2, ⟨"PHONE", "iOS", ⟨"USA"⟩⟩⟩] rfl).1

end Bidder

namespace Bidder

/-- C4: the bid price is `round(basePrice * multiplier, 2)` with
`multiplier = clamp(1 + ctr/0.05, 1.0, 2.0)` (for the nonnegative CTRs the
predictor produces, the code's `min(..., 2.0)` coincides with the claimed
two-sided clamp); the price is monotone non-decreasing in the CTR and capped
at the rounding of twice the base price; and in the conservative scenario
(bidfloor 2.0, minBid 2.00, markup 0.20, CTR 0.015) the base price is 2.20,
the multiplier 1.3 and the final price 2.86 = 143/50. -/
theorem c4_price_formula (cfg : Profile) (imp : Imp) (ctr ctr' : ℚ)
    (h0 : 0 ≤ ctr) (h1 : ctr ≤ ctr') (hb : 0 ≤ base_price cfg imp) :
    bid_price cfg imp ctr
        = round2 (base_price cfg imp * min (max (1 + ctr / (5/100)) 1) 2)
      ∧ bid_price cfg imp ctr ≤ bid_price cfg imp ctr'
      ∧ bid_price cfg imp ctr ≤ round2 (2 * base_price cfg imp)
      ∧ base_price conservative ⟨"imp-s", some 2, ⟨"PHONE", "iOS", ⟨"USA"⟩⟩⟩ = 11/5
      ∧ ctr_multiplier (15/1000) = 13/10
      ∧ bid_price conservative ⟨"imp-s", some 2, ⟨"PHONE", "iOS", ⟨"USA"⟩⟩⟩ (15/1000)
        = 143/50 := by
  have h20 : (0 : ℚ) < 5/100 := by norm_num
  have hmul : ctr_multiplier ctr ≤ ctr_multiplier ctr' := by
    unfold ctr_multiplier
    refine min_le_min ?_ le_rfl
    have := (div_le_div_iff_of_pos_right h20).mpr h1
    linarith
  have hcap : ctr_multiplier ctr ≤ 2 := min_le_right _ _
  refine ⟨?_, ?_, ?_, ?_, ?_, ?_⟩
  · unfold bid_price ctr_multiplier
    rw [max_eq_left (le_add_of_nonneg_right (div_nonneg h0 h20.le))]
  · exact round2_mono (mul_le_mul_of_nonneg_left hmul hb)
  · have hm := mul_le_mul_of_nonneg_left hcap hb
    exact round2_mono (by linarith)
  · with_unfolding_all decide
  · with_unfolding_all decide
  · with_unfolding_all decide

/-- C4 witness: monotonicity applied concretely (CTR 0 versus CTR 1 on the
scenario impression). -/
theorem c4_price_formula_witness :
    bid_price conservative ⟨"imp-s", some 2, ⟨"PHONE", "iOS", ⟨"USA"⟩⟩⟩ 0
      ≤ bid_price conservative ⟨"imp-s", some 2, ⟨"PHONE", "iOS", ⟨"USA"⟩⟩⟩ 1 :=
  (c4_price_formula conservative ⟨"imp-s", some 2, ⟨"PHONE", "iOS", ⟨"USA"⟩⟩⟩ 0 1
      le_rfl zero_le_one (by with_unfolding_all decide)).2.1

/-- C5 counterexample: the extracted feature vector has length 8, not 7
(3 device slots + 2 OS slots + 1 country slot + hour + bidfloor), and the
country flag is set for `"usa"` as well — the comparison upper-cases the
country before comparing with `"USA"`, so "is the literal string USA" is
not the exact condition. -/
theorem c5_feature_vector_counterexample :
    (extract_features ⟨"i", some 2, ⟨"PHONE", "iOS", ⟨"usa"⟩⟩⟩ ⟨2025, 1, 5, 10⟩).length = 8 ∧
      (extract_features ⟨"i", some 2, ⟨"PHONE", "iOS", ⟨"usa"⟩⟩⟩ ⟨2025, 1, 5, 10⟩).getD 5 0 = 1 ∧
      "usa" ≠ "USA" := by
  refine ⟨rfl, by with_unfolding_all decide, by decide⟩

/-- C5 (amended): `_extract_features` yields a length-8 numeric vector:
a one-hot device encoding over phone/tablet/other in slots 0-2 (each slot
0 or 1, summing to 1), an OS encoding over iOS/Android in slots 3-4 (each
0 or 1, at most one set, all-zero exactly for other OSes), a country flag
in slot 5 set iff the upper-cased country is `"USA"` (independent of any
strategy profile), the normalized hour `hour/23` in slot 6 and the
normalized bidfloor `min(bidfloor, 3)/3` in slot 7. -/
theorem c5_feature_layout (imp : Imp) (now : DateTime) :
    (extract_features imp now).length = 8
    ∧ ((extract_features imp now).getD 0 0 = 0 ∨ (extract_features imp now).getD 0 0 = 1)
    ∧ ((extract_features imp now).getD 1 0 = 0 ∨ (extract_features imp now).getD 1 0 = 1)
    ∧ ((extract_features imp now).getD 2 0 = 0 ∨ (extract_features imp now).getD 2 0 = 1)
    ∧ (extract_features imp now).getD 0 0 + (extract_features imp now).getD 1 0 +
        (extract_features imp now).getD 2 0 = 1
    ∧ ((extract_features imp now).getD 3 0 = 0 ∨ (extract_features imp now).getD 3 0 = 1)
    ∧ ((extract_features imp now).getD 4 0 = 0 ∨ (extract_features imp now).getD 4 0 = 1)
    ∧ (extract_features imp now).getD 3 0 + (extract_features imp now).getD 4 0 ≤ 1
    ∧ ((extract_features imp now).getD 3 0 + (extract_features imp now).getD 4 0 = 0 ↔
        (asciiLower imp.device.os ≠ "ios" ∧ asciiLower imp.device.os ≠ "android"))
    ∧ ((extract_features imp now).getD 5 0 =
        if asciiUpper imp.device.geo.country = "USA" then 1 else 0)
    ∧ (extract_features imp now).getD 6 0 = (now.hour : ℚ) / 23
    ∧ (extract_features imp now).getD 7 0 = min (imp.bidfloor.getD 1) 3 / 3 := by
  by_cases hP : asciiUpper imp.device.devicetype = "PHONE" <;>
    by_cases hT : asciiUpper imp.device.devicetype = "TABLET" <;>
      by_cases hI : asciiLower imp.device.os = "ios" <;>
        by_cases hA : asciiLower imp.device.os = "android" <;>
          simp_all [extract_features, List.getD]

/-- C7: `predict` returns the sigmoid of the (clipped) logit
`w · features + b` — the final `np.clip(probability, 0, 1)` is the
identity since the sigmoid already lies in `(0, 1)` — and the returned CTR
is always within `[0, 1]`. -/
theorem c7_predict_sigmoid_range (w : Fin 8 → ℝ) (b : ℝ) (imp : Imp) (now : DateTime) :
    predict w b imp now = sigmoid ((∑ i, w i * featR imp now i) + b)
      ∧ 0 ≤ predict w b imp now ∧ predict w b imp now ≤ 1 := by
  have h1 : 0 < sigmoid ((∑ i, w i * featR imp now i) + b) := by
    unfold sigmoid
    positivity
  have h2 : sigmoid ((∑ i, w i * featR imp now i) + b) ≤ 1 := by
    unfold sigmoid
    rw [div_le_one (by positivity)]
    linarith [Real.exp_pos (-(npclip ((∑ i, w i * featR imp now i) + b) (-500) 500))]
  unfold predict npclip
  rw [max_eq_left h1.le, min_eq_left h2]
  exact ⟨rfl, h1.le, h2⟩

/-- C8: when the CTR prediction raises (`none`), the decision proceeds with
the fixed default CTR 0.015 instead of aborting: the accepted impression
is still priced and bid on, and the step is identical to one whose
prediction returned 0.015. -/
theorem c8_prediction_failure_fallback (cfg : Profile) (now : DateTime)
    (s : BudgetState) (imp : Imp) (h : (should_bid cfg now s imp).2 = true) :
    (processImp cfg (fun _ => none) now s imp).2 = some (bid_price cfg imp default_ctr)
      ∧ processImp cfg (fun _ => none) now s imp
        = processImp cfg (fun _ => some default_ctr) now s imp := by
  have h1 := processImp_of_bid cfg (fun _ => none) now s imp h
  have h2 := processImp_of_bid cfg (fun _ => some default_ctr) now s imp h
  simp [h1, h2, resolve_ctr]

/-- C8 witness: the fallback step applied to a concrete admitted
impression. -/
theorem c8_prediction_failure_fallback_witness :
    (processImp conservative (fun _ => none) ⟨2025, 1, 5, 10⟩ ⟨0, 0, 5⟩
        ⟨"imp-ok", some 2, ⟨"PHONE", "iOS", ⟨"USA"⟩⟩⟩).2
      = some (bid_price conservative ⟨"imp-ok", some 2, ⟨"PHONE", "iOS", ⟨"USA"⟩⟩⟩
          default_ctr) :=
  (c8_prediction_failure_fallback conservative ⟨2025, 1, 5, 10⟩ ⟨0, 0, 5⟩
      ⟨"imp-ok", some 2, ⟨"PHONE", "iOS", ⟨"USA"⟩⟩⟩ (by decide)).1

theorem extract_features_hour_only (imp : Imp) (t₁ t₂ : DateTime)
    (h : t₁.hour = t₂.hour) :
    extract_features imp t₁ = extract_features imp t₂ := by
  unfold extract_features
  rw [h]

/-- C9: `predict` is deterministic given the persisted weights and bias:
its only time-dependent input is the hour-of-day feature, so two
invocations on the same impression at clock readings with equal hours
return the identical CTR. -/
theorem c9_predict_deterministic (w : Fin 8 → ℝ) (b : ℝ) (imp : Imp)
    (t₁ t₂ : DateTime) (h : t₁.hour = t₂.hour) :
    predict w b imp t₁ = predict w b imp t₂ := by
  have hf : featR imp t₁ = featR imp t₂ := by
    funext i
    unfold featR
    rw [extract_features_hour_only imp t₁ t₂ h]
  unfold predict
  rw [hf]

/-- C9 witness: two clock readings a year apart with the same hour yield
the same prediction. -/
theorem c9_predict_deterministic_witness :
    predict (fun _ => 0) 0 ⟨"i", some 2, ⟨"PHONE", "iOS", ⟨"USA"⟩⟩⟩ ⟨2025, 1, 5, 10⟩
      = predict (fun _ => 0) 0 ⟨"i", some 2, ⟨"PHONE", "iOS", ⟨"USA"⟩⟩⟩ ⟨2026, 7, 9, 10⟩ :=
  c9_predict_deterministic (fun _ => 0) 0 ⟨"i", some 2, ⟨"PHONE", "iOS", ⟨"USA"⟩⟩⟩
    ⟨2025, 1, 5, 10⟩ ⟨2026, 7, 9, 10⟩ rfl

end Bidder
